import Mathlib

/-!
Verification of the archive reconciliation plugin (`src/lib/plugins/archive.js`).

The module is a class `Archive` constructed with `(nop, github, repo, settings, log)`.
We embed its methods as pure Lean functions over a small model of JavaScript
values, passing the constructor fields and the outcomes of the injected
asynchronous capabilities (`github.repos.get`, `github.repos.update`, the
logger) explicitly.  Effects (remote update calls, log entries) are returned
as lists alongside the result value.
-/

/-- A primitive JavaScript value: `undefined`, `null`, a boolean, a string or
a number.  Numbers are modelled as integers; the code only ever compares a
number against the literal `404`. -/
inductive JSPrim where
  | undefined
  | null
  | bool (b : Bool)
  | str (s : String)
  | num (n : Int)
deriving DecidableEq, Repr

/-- JavaScript truthiness for primitive values: `undefined`, `null`, `false`,
the empty string and `0` are falsy, everything else is truthy. -/
def JSPrim.truthy : JSPrim → Bool
  | .undefined => false
  | .null => false
  | .bool b => b
  | .str s => !(s == "")
  | .num n => !(n == 0)

/-- A JavaScript value: either a primitive or an object, modelled as a list of
fields holding primitive values.  One level of nesting is all the plugin ever
dereferences (`repository?.archived`, `settings?.archived`, `error.status`). -/
inductive JSVal where
  | prim (p : JSPrim)
  | obj (fields : List (String × JSPrim))
deriving DecidableEq, Repr

/-- Optional-chaining property access `v?.k`: reading a field of a non-object
(including `null` and `undefined`) yields `undefined`, as does a missing
field. -/
def JSVal.get (v : JSVal) (k : String) : JSPrim :=
  match v with
  | .obj fs =>
      match fs.find? (fun p => p.1 == k) with
      | some p => p.2
      | none => .undefined
  | .prim _ => .undefined

/-- Truthiness of a JavaScript value: objects are always truthy. -/
def JSVal.truthy : JSVal → Bool
  | .prim p => p.truthy
  | .obj _ => true

/-- The `this.repo` constructor field: an `{ owner, repo }` pair identifying
the managed repository. -/
structure RepoId where
  owner : String
  repo : String
deriving DecidableEq, Repr

/-- The change record built in the `nop` branch of `updateRepoArchiveStatus`:
`{ msg, additions, modifications, deletions }`. -/
structure ChangeRecord where
  msg : String
  additions : List (String × JSPrim)
  modifications : List (String × JSPrim)
  deletions : List (String × JSPrim)
deriving DecidableEq, Repr

/-- Modelled from the spec: `github.repos.update.endpoint` is an accessor of
the injected resource-access capability (spec §6, "an `endpointDescriptor()`
accessor on the update operation must be obtainable for Preview mode to
describe the would-be call"); its implementation is not part of this
repository.  We model the descriptor abstractly as a record of the parameter
object the accessor was invoked with, which is exactly the information the
descriptor is a function of. -/
inductive EndpointDescriptor where
  | updateEndpoint (params : JSVal)
deriving DecidableEq, Repr

/-- Modelled from the spec: `lib/nopcommand.js` is not under `src/` (only
required by the plugin and its test).  The spec's PreviewArtifact shape (§6)
gives its fields — originating component name, target resource identity,
descriptor of the would-be remote operation, the change record, and a
severity level — in the order the constructor receives them in
`archive.js`. -/
structure NopCommand where
  source : String
  repo : RepoId
  endpoint : EndpointDescriptor
  change : ChangeRecord
  level : String
deriving DecidableEq, Repr

/-- The value `updateRepoArchiveStatus` resolves with: the `NopCommand` in
preview (`nop`) mode, or `undefined` (`applied`, the implicit resolution
value of the `async` function after awaiting the remote update) in apply
mode. -/
inductive ExecResult where
  | nopCmd (c : NopCommand)
  | applied
deriving DecidableEq, Repr

/-- A logger call: `log.debug({ result: data }, msg)` with a context object,
`log.debug(msg)` without one, or `log.warn(msg)`. -/
inductive LogEntry where
  | debugWith (result : JSVal) (msg : String)
  | debug (msg : String)
  | warn (msg : String)
deriving DecidableEq, Repr

namespace Archive

/-- `getRepo`: awaits `github.repos.get({owner, repo})`; on success returns
the response `data`; on failure returns `null` when `error.status === 404`
and rethrows every other error.  The outcome of the remote call is passed in
as an `Except` (`.ok data` for a resolved call, `.error e` for a rejected
one); the result is `.error e` exactly when `getRepo` rethrows. -/
def getRepo (outcome : Except JSVal JSVal) : Except JSVal JSVal :=
  match outcome with
  | .ok data => .ok data
  | .error e =>
      if e.get "status" == JSPrim.num 404 then .ok (.prim .null)
      else .error e

/-- The parameter object apply mode passes to `github.repos.update`:
`{ owner: this.repo.owner, repo: this.repo.repo, archived }`. -/
def applyUpdateParams (repo : RepoId) (archived : Bool) : JSVal :=
  .obj [("owner", .str repo.owner), ("repo", .str repo.repo), ("archived", .bool archived)]

/-- `updateRepoArchiveStatus(archived)`: derives `action` from `archived`;
in `nop` mode returns a `NopCommand` built from the class name, `this.repo`,
`github.repos.update.endpoint(this.settings)`, the change record and
`'INFO'`, performing no update; otherwise awaits
`github.repos.update({owner, repo, archived})`, emits a debug log
`({ result: data }, "Repo <owner>/<repo> <action>d")` and resolves with
`undefined`.  `updateResponse` is the `data` the remote update resolves
with; the returned lists are the log entries emitted and the parameter
objects of the update calls made. -/
def updateRepoArchiveStatus (nop : Bool) (repo : RepoId) (settings : JSVal)
    (archived : Bool) (updateResponse : JSVal) :
    ExecResult × List LogEntry × List JSVal :=
  let action := if archived then "archive" else "unarchive"
  if nop then
    (.nopCmd
      { source := "Archive"
        repo := repo
        endpoint := .updateEndpoint settings
        change :=
          { msg := "Change found"
            additions := []
            modifications := [("archived", .str action)]
            deletions := [] }
        level := "INFO" },
     [], [])
  else
    (.applied,
     [.debugWith updateResponse
        ("Repo " ++ repo.owner ++ "/" ++ repo.repo ++ " " ++ action ++ "d")],
     [applyUpdateParams repo archived])

/-- `getDesiredArchiveState()`: `null` (modelled as `none`) when
`typeof this.settings?.archived === 'undefined'`; the boolean itself when the
value is a genuine boolean; otherwise the result of the strict comparison
`this.settings.archived === 'true'`. -/
def getDesiredArchiveState (settings : JSVal) : Option Bool :=
  match settings.get "archived" with
  | .undefined => none
  | .bool b => some b
  | v => some (v == JSPrim.str "true")

/-- `shouldArchive(repository)`: `false` when the desired state is `null`;
otherwise `!repository?.archived && desiredState`, which is always a
boolean since `desiredState` is one. -/
def shouldArchive (repository : JSVal) (settings : JSVal) : Bool :=
  match getDesiredArchiveState settings with
  | none => false
  | some desiredState => !(repository.get "archived").truthy && desiredState

/-- `shouldUnarchive(repository)`: `false` when the desired state is `null`;
otherwise the JavaScript value of `repository?.archived && !desiredState` —
the raw `repository?.archived` value itself when it is falsy (so `undefined`
for an absent repository), and the boolean `!desiredState` when it is
truthy. -/
def shouldUnarchive (repository : JSVal) (settings : JSVal) : JSPrim :=
  match getDesiredArchiveState settings with
  | none => .bool false
  | some desiredState =>
      let a := repository.get "archived"
      if a.truthy then .bool (!desiredState) else a

/-- `isArchived()`: the raw value of `this.repository?.archived`. -/
def isArchived (repository : JSVal) : JSPrim :=
  repository.get "archived"

/-- The reconciliation action `sync` selects from the two predicates: act
only when `shouldArchive` or `shouldUnarchive` is truthy, and archive
exactly when `shouldArchive` is true (`const archived = shouldArchive`). -/
inductive ReconciliationAction where
  | noAction
  | archive
  | unarchive
deriving DecidableEq, Repr

/-- The action selected for a fetched repository and settings, following the
branch structure of `sync`. -/
def decideAction (repository : JSVal) (settings : JSVal) : ReconciliationAction :=
  if shouldArchive repository settings then .archive
  else if (shouldUnarchive repository settings).truthy then .unarchive
  else .noAction

/-- The object `getState()` resolves with:
`{ isArchived, shouldArchive, shouldUnarchive }`, each field the raw value
of the corresponding method applied to the freshly fetched repository. -/
structure RepoState where
  isArchived : JSPrim
  shouldArchive : Bool
  shouldUnarchive : JSPrim
deriving DecidableEq, Repr

/-- `getState()`: fetches the repository via `getRepo` (rethrowing what it
rethrows) and reports the three predicates on the fetched value. -/
def getState (fetchOutcome : Except JSVal JSVal) (settings : JSVal) :
    Except JSVal RepoState :=
  match getRepo fetchOutcome with
  | .error e => .error e
  | .ok repository =>
      .ok { isArchived := isArchived repository
            shouldArchive := shouldArchive repository settings
            shouldUnarchive := shouldUnarchive repository settings }

/-- What one `sync()` call produces on success: the resolved result list,
the log entries emitted, and the parameter objects of the remote update
calls made. -/
structure SyncOutput where
  results : List ExecResult
  logs : List LogEntry
  updateCalls : List JSVal
deriving DecidableEq, Repr

/-- `sync()`: fetches the repository; if the fetched value is falsy
(`!this.repository`) warns and resolves with `[]`; if neither predicate is
truthy logs at debug level and resolves with `[]`; otherwise pushes the
single result of `updateRepoArchiveStatus(shouldArchive)` and resolves with
that one-element list.  A rethrown fetch error propagates as `.error`. -/
def sync (nop : Bool) (repo : RepoId) (settings : JSVal)
    (fetchOutcome : Except JSVal JSVal) (updateResponse : JSVal) :
    Except JSVal SyncOutput :=
  match getRepo fetchOutcome with
  | .error e => .error e
  | .ok repository =>
      if !repository.truthy then
        .ok { results := []
              logs := [.warn ("Repo " ++ repo.owner ++ "/" ++ repo.repo ++
                        " not found, skipping archive sync")]
              updateCalls := [] }
      else
        let sa := shouldArchive repository settings
        let su := shouldUnarchive repository settings
        if !sa && !su.truthy then
          .ok { results := []
                logs := [.debug ("No archive changes needed for " ++
                          repo.owner ++ "/" ++ repo.repo)]
                updateCalls := [] }
        else
          let archived := sa
          match updateRepoArchiveStatus nop repo settings archived updateResponse with
          | (res, logs, calls) =>
              .ok { results := [res], logs := logs, updateCalls := calls }

end Archive

section Lemmas

/-- Truthiness of a boolean primitive is the boolean itself. -/
@[simp] lemma JSPrim.truthy_bool (b : Bool) : (JSPrim.bool b).truthy = b := rfl

/-- `shouldArchive` is true exactly when the desired state is `True` and the
observed `archived` attribute is falsy. -/
lemma shouldArchive_eq_true_iff (r s : JSVal) :
    Archive.shouldArchive r s = true ↔
      Archive.getDesiredArchiveState s = some true ∧
        (r.get "archived").truthy = false := by
  unfold Archive.shouldArchive
  cases h : Archive.getDesiredArchiveState s with
  | none => simp
  | some d =>
      cases d <;> cases ha : (r.get "archived").truthy <;> simp [ha]

/-- `shouldUnarchive` is truthy exactly when the desired state is `False` and
the observed `archived` attribute is truthy. -/
lemma shouldUnarchive_truthy_iff (r s : JSVal) :
    (Archive.shouldUnarchive r s).truthy = true ↔
      Archive.getDesiredArchiveState s = some false ∧
        (r.get "archived").truthy = true := by
  unfold Archive.shouldUnarchive
  cases h : Archive.getDesiredArchiveState s with
  | none => simp [JSPrim.truthy]
  | some d =>
      dsimp only
      by_cases ha : (r.get "archived").truthy = true
      · rw [if_pos ha]
        cases d <;> simp [ha]
      · rw [if_neg ha]
        simp only [Bool.not_eq_true] at ha
        simp [ha]

/-- The selected action is `archive` exactly when `shouldArchive` is true. -/
lemma decideAction_eq_archive_iff (r s : JSVal) :
    Archive.decideAction r s = .archive ↔ Archive.shouldArchive r s = true := by
  unfold Archive.decideAction
  by_cases h1 : Archive.shouldArchive r s <;>
    by_cases h2 : (Archive.shouldUnarchive r s).truthy <;> simp [h1, h2]

/-- The selected action is `unarchive` exactly when `shouldArchive` is false
and `shouldUnarchive` is truthy. -/
lemma decideAction_eq_unarchive_iff (r s : JSVal) :
    Archive.decideAction r s = .unarchive ↔
      (Archive.shouldArchive r s = false ∧
        (Archive.shouldUnarchive r s).truthy = true) := by
  unfold Archive.decideAction
  by_cases h1 : Archive.shouldArchive r s <;>
    by_cases h2 : (Archive.shouldUnarchive r s).truthy <;> simp [h1, h2]

/-- The skip condition of `sync` in terms of the selected action. -/
lemma decideAction_eq_noAction_iff (r s : JSVal) :
    Archive.decideAction r s = .noAction ↔
      (Archive.shouldArchive r s = false ∧
        (Archive.shouldUnarchive r s).truthy = false) := by
  unfold Archive.decideAction
  by_cases h1 : Archive.shouldArchive r s <;>
    by_cases h2 : (Archive.shouldUnarchive r s).truthy <;> simp [h1, h2]

/-- When an action is selected, the desired state equals the boolean that
apply mode sends (`const archived = shouldArchive`). -/
lemma desired_eq_shouldArchive_of_action (r s : JSVal)
    (h : Archive.decideAction r s ≠ .noAction) :
    Archive.getDesiredArchiveState s = some (Archive.shouldArchive r s) := by
  by_cases h1 : Archive.shouldArchive r s
  · rw [h1]
    exact (shouldArchive_eq_true_iff r s |>.mp h1).1
  · have hf : Archive.shouldArchive r s = false := by simpa using h1
    rw [hf]
    by_cases h2 : (Archive.shouldUnarchive r s).truthy
    · exact (shouldUnarchive_truthy_iff r s |>.mp h2).1
    · have hf2 : (Archive.shouldUnarchive r s).truthy = false := by simpa using h2
      exact absurd ((decideAction_eq_noAction_iff r s).mpr ⟨hf, hf2⟩) h

end Lemmas

/-- Claim C1: for every observed repository value and settings value, the
selected action is `archive` iff the desired state is `True` and the observed
`archived` attribute is falsy; `unarchive` iff the desired state is `False`
and the observed `archived` attribute is truthy; and it is `noAction`
whenever the desired state is `Unset` (`settings.archived` undefined,
modelled as `getDesiredArchiveState = none`) — the two iffs force `noAction`
in every remaining case since the action type has three constructors. -/
theorem decideAction_characterization (repository settings : JSVal) :
    (Archive.decideAction repository settings = .archive ↔
      Archive.getDesiredArchiveState settings = some true ∧
        (repository.get "archived").truthy = false) ∧
    (Archive.decideAction repository settings = .unarchive ↔
      Archive.getDesiredArchiveState settings = some false ∧
        (repository.get "archived").truthy = true) ∧
    (Archive.getDesiredArchiveState settings = none →
      Archive.decideAction repository settings = .noAction) := by
  refine ⟨?_, ?_, ?_⟩
  · rw [decideAction_eq_archive_iff]
    exact shouldArchive_eq_true_iff repository settings
  · rw [decideAction_eq_unarchive_iff]
    constructor
    · intro hc
      exact (shouldUnarchive_truthy_iff repository settings).mp hc.2
    · intro hc
      refine ⟨?_, (shouldUnarchive_truthy_iff repository settings).mpr hc⟩
      by_contra hb
      have hA := (shouldArchive_eq_true_iff repository settings).mp (by simpa using hb)
      rw [hc.1] at hA
      exact absurd hA.1 (by simp)
  · intro hu
    rw [decideAction_eq_noAction_iff]
    constructor
    · by_contra hb
      have := (shouldArchive_eq_true_iff repository settings).mp (by simpa using hb)
      rw [hu] at this
      exact absurd this.1 (by simp)
    · by_contra hb
      have := (shouldUnarchive_truthy_iff repository settings).mp (by simpa using hb)
      rw [hu] at this
      exact absurd this.1 (by simp)

/-- Witness for C1 at a concrete input: an unarchived repository with desired
state `True` selects `archive`. -/
theorem decideAction_characterization_witness :
    Archive.decideAction (JSVal.obj [("archived", JSPrim.bool false)])
      (JSVal.obj [("archived", JSPrim.bool true)]) = .archive :=
  (decideAction_characterization (JSVal.obj [("archived", JSPrim.bool false)])
    (JSVal.obj [("archived", JSPrim.bool true)])).1.mpr (by decide)

/-- Claim C8: `shouldArchive` and `shouldUnarchive` are never simultaneously
truthy (so the selected action is exactly one of the three variants, the
selection `if`-chain being total), and an `archive`/`unarchive` outcome
occurs only when the desired state is explicitly set (`some b`) and differs
from the truthiness of the observed `archived` attribute. -/
theorem decision_exclusive (repository settings : JSVal) :
    ¬(Archive.shouldArchive repository settings = true ∧
        (Archive.shouldUnarchive repository settings).truthy = true) ∧
    (Archive.decideAction repository settings ≠ .noAction →
      ∃ b, Archive.getDesiredArchiveState settings = some b ∧
        (repository.get "archived").truthy ≠ b) := by
  constructor
  · rintro ⟨h1, h2⟩
    have a1 := (shouldArchive_eq_true_iff repository settings).mp h1
    have a2 := (shouldUnarchive_truthy_iff repository settings).mp h2
    rw [a1.1] at a2
    exact absurd a2.1 (by simp)
  · intro h
    refine ⟨Archive.shouldArchive repository settings,
      desired_eq_shouldArchive_of_action repository settings h, ?_⟩
    by_cases h1 : Archive.shouldArchive repository settings
    · have := (shouldArchive_eq_true_iff repository settings).mp h1
      rw [h1, this.2]
      simp
    · have hf : Archive.shouldArchive repository settings = false := by simpa using h1
      by_cases h2 : (Archive.shouldUnarchive repository settings).truthy
      · have := (shouldUnarchive_truthy_iff repository settings).mp h2
        rw [hf, this.2]
        simp
      · have hf2 : (Archive.shouldUnarchive repository settings).truthy = false := by
          simpa using h2
        exact absurd ((decideAction_eq_noAction_iff repository settings).mpr ⟨hf, hf2⟩) h

/-- Witness for C8 at a concrete input: an unarchived repository with desired
state `True` yields an action, and the desired state differs from the
observed attribute. -/
theorem decision_exclusive_witness :
    ∃ b, Archive.getDesiredArchiveState (JSVal.obj [("archived", JSPrim.bool true)]) =
          some b ∧
      ((JSVal.obj [] : JSVal).get "archived").truthy ≠ b :=
  (decision_exclusive (JSVal.obj []) (JSVal.obj [("archived", JSPrim.bool true)])).2
    (by decide)

/-- Claim C4: the state normalizer maps an undefined `settings.archived` to
`Unset` (`none`, the `null` the code returns), a genuine boolean to itself,
the exact string `"true"` to `True`, and every other primitive value to
`False`; it is a total function, so no error is ever raised. -/
theorem getDesiredArchiveState_normalizes (settings : JSVal) :
    (settings.get "archived" = .undefined →
      Archive.getDesiredArchiveState settings = none) ∧
    (∀ b : Bool, settings.get "archived" = .bool b →
      Archive.getDesiredArchiveState settings = some b) ∧
    (settings.get "archived" = .str "true" →
      Archive.getDesiredArchiveState settings = some true) ∧
    (∀ v : JSPrim, settings.get "archived" = v → v ≠ .undefined →
      (∀ b : Bool, v ≠ .bool b) → v ≠ .str "true" →
      Archive.getDesiredArchiveState settings = some false) := by
  refine ⟨?_, ?_, ?_, ?_⟩
  · intro h
    unfold Archive.getDesiredArchiveState
    rw [h]
  · intro b h
    unfold Archive.getDesiredArchiveState
    rw [h]
  · intro h
    unfold Archive.getDesiredArchiveState
    rw [h]
    rfl
  · intro v h h1 h2 h3
    unfold Archive.getDesiredArchiveState
    rw [h]
    cases v with
    | undefined => exact absurd rfl h1
    | bool b => exact absurd rfl (h2 b)
    | null => rfl
    | str s =>
        have hs : s ≠ "true" := fun hs => h3 (by rw [hs])
        simp [hs]
    | num n => rfl

/-- Witness for C4 at a concrete input: the string `"TRUE"` normalizes to
`False`. -/
theorem getDesiredArchiveState_normalizes_witness :
    Archive.getDesiredArchiveState (JSVal.obj [("archived", JSPrim.str "TRUE")]) =
      some false :=
  (getDesiredArchiveState_normalizes (JSVal.obj [("archived", JSPrim.str "TRUE")])).2.2.2
    (JSPrim.str "TRUE") (by decide) (by decide) (by decide) (by decide)

/-- Claim C9: a `null` (not undefined) `settings.archived` normalizes to
`False` because the undefined check uses `typeof`, so on an archived
repository `sync` performs (apply mode) or previews (nop mode) an unarchive
instead of the no-op an `Unset` policy would give. -/
theorem null_setting_unarchives :
    Archive.getDesiredArchiveState (JSVal.obj [("archived", JSPrim.null)]) =
      some false ∧
    Archive.sync false ⟨"o", "r"⟩ (JSVal.obj [("archived", JSPrim.null)])
      (Except.ok (JSVal.obj [("archived", JSPrim.bool true)])) (JSVal.obj []) =
      Except.ok { results := [.applied],
                  logs := [.debugWith (JSVal.obj []) "Repo o/r unarchived"],
                  updateCalls := [Archive.applyUpdateParams ⟨"o", "r"⟩ false] } ∧
    Archive.sync true ⟨"o", "r"⟩ (JSVal.obj [("archived", JSPrim.null)])
      (Except.ok (JSVal.obj [("archived", JSPrim.bool true)])) (JSVal.obj []) =
      Except.ok { results := [.nopCmd
                    { source := "Archive"
                      repo := ⟨"o", "r"⟩
                      endpoint := .updateEndpoint (JSVal.obj [("archived", JSPrim.null)])
                      change := { msg := "Change found", additions := [],
                                  modifications := [("archived", JSPrim.str "unarchive")],
                                  deletions := [] }
                      level := "INFO" }],
                  logs := [], updateCalls := [] } := by
  refine ⟨rfl, rfl, rfl⟩

/-- Claim C10: the decision predicates do not guard against an absent
repository: on a `null` or `undefined` repository with desired state `True`,
`shouldArchive` is `true` and `shouldUnarchive` evaluates to `undefined` — a
non-boolean falsy value rather than `false`; only `sync`'s early return on a
falsy repository (which warns and makes no update call) prevents acting, and
`getState` on a not-found repository reports `shouldArchive: true`. -/
theorem absent_repo_predicates :
    Archive.shouldArchive (JSVal.prim .null)
      (JSVal.obj [("archived", JSPrim.bool true)]) = true ∧
    Archive.shouldArchive (JSVal.prim .undefined)
      (JSVal.obj [("archived", JSPrim.bool true)]) = true ∧
    Archive.shouldUnarchive (JSVal.prim .null)
      (JSVal.obj [("archived", JSPrim.bool true)]) = .undefined ∧
    Archive.shouldUnarchive (JSVal.prim .undefined)
      (JSVal.obj [("archived", JSPrim.bool true)]) = .undefined ∧
    JSPrim.undefined ≠ JSPrim.bool false ∧
    JSPrim.truthy .undefined = false ∧
    Archive.sync false ⟨"o", "r"⟩ (JSVal.obj [("archived", JSPrim.bool true)])
      (Except.error (JSVal.obj [("status", JSPrim.num 404)])) (JSVal.obj []) =
      Except.ok { results := [],
                  logs := [.warn "Repo o/r not found, skipping archive sync"],
                  updateCalls := [] } ∧
    Archive.getState (Except.error (JSVal.obj [("status", JSPrim.num 404)]))
      (JSVal.obj [("archived", JSPrim.bool true)]) =
      Except.ok { isArchived := .undefined, shouldArchive := true,
                  shouldUnarchive := .undefined } := by
  refine ⟨rfl, rfl, rfl, rfl, by decide, rfl, rfl, rfl⟩

/-- Claim C6: among failing remote gets, `getRepo` returns the `NotFound`
marker (`null`) instead of rethrowing exactly when `error.status === 404`,
and rethrows every other error unchanged (no retry: the function consults
the single remote outcome it is given); a successful get passes its data
through. -/
theorem getRepo_not_found_behavior (e : JSVal) :
    (Archive.getRepo (Except.error e) = Except.ok (JSVal.prim .null) ↔
      e.get "status" = JSPrim.num 404) ∧
    (e.get "status" ≠ JSPrim.num 404 →
      Archive.getRepo (Except.error e) = Except.error e) ∧
    (∀ d : JSVal, Archive.getRepo (Except.ok d) = Except.ok d) := by
  refine ⟨?_, ?_, fun d => rfl⟩
  · unfold Archive.getRepo
    by_cases h : e.get "status" = JSPrim.num 404 <;> simp [h]
  · intro h
    unfold Archive.getRepo
    simp [h]

/-- Witness for C6 at a concrete input: a status-500 error is rethrown
unchanged. -/
theorem getRepo_not_found_behavior_witness :
    Archive.getRepo (Except.error (JSVal.obj [("status", JSPrim.num 500)])) =
      Except.error (JSVal.obj [("status", JSPrim.num 500)]) :=
  (getRepo_not_found_behavior (JSVal.obj [("status", JSPrim.num 500)])).2.1 (by decide)

section SyncBranches

/-- `sync` on a falsy fetched repository: early return with a warning and no
update call. -/
lemma sync_not_found (nop : Bool) (repo : RepoId) (settings repository resp : JSVal)
    (ht : repository.truthy = false) :
    Archive.sync nop repo settings (Except.ok repository) resp =
      Except.ok { results := []
                  logs := [.warn ("Repo " ++ repo.owner ++ "/" ++ repo.repo ++
                            " not found, skipping archive sync")]
                  updateCalls := [] } := by
  unfold Archive.sync Archive.getRepo
  simp [ht]

/-- `sync` when neither predicate fires: debug log, empty result, no update
call. -/
lemma sync_skip (nop : Bool) (repo : RepoId) (settings repository resp : JSVal)
    (ht : repository.truthy = true)
    (hno : Archive.decideAction repository settings = .noAction) :
    Archive.sync nop repo settings (Except.ok repository) resp =
      Except.ok { results := []
                  logs := [.debug ("No archive changes needed for " ++
                            repo.owner ++ "/" ++ repo.repo)]
                  updateCalls := [] } := by
  have hc := (decideAction_eq_noAction_iff repository settings).mp hno
  unfold Archive.sync Archive.getRepo
  simp [ht, hc.1, hc.2]

/-- `sync` when an action is selected: it pushes the single result of
`updateRepoArchiveStatus (shouldArchive)` together with that call's log
entries and update calls. -/
lemma sync_act (nop : Bool) (repo : RepoId) (settings repository resp : JSVal)
    (ht : repository.truthy = true)
    (hact : Archive.decideAction repository settings ≠ .noAction) :
    Archive.sync nop repo settings (Except.ok repository) resp =
      Except.ok { results := [(Archive.updateRepoArchiveStatus nop repo settings
                    (Archive.shouldArchive repository settings) resp).1]
                  logs := (Archive.updateRepoArchiveStatus nop repo settings
                    (Archive.shouldArchive repository settings) resp).2.1
                  updateCalls := (Archive.updateRepoArchiveStatus nop repo settings
                    (Archive.shouldArchive repository settings) resp).2.2 } := by
  have hne : ¬(Archive.shouldArchive repository settings = false ∧
      (Archive.shouldUnarchive repository settings).truthy = false) :=
    fun hc => hact ((decideAction_eq_noAction_iff repository settings).mpr hc)
  have hcond : (!Archive.shouldArchive repository settings &&
      !(Archive.shouldUnarchive repository settings).truthy) = false := by
    by_cases h1 : Archive.shouldArchive repository settings
    · simp [h1]
    · have h1f : Archive.shouldArchive repository settings = false := by simpa using h1
      have h2 : (Archive.shouldUnarchive repository settings).truthy = true := by
        by_contra hb
        exact hne ⟨h1f, by simpa using hb⟩
      simp [h1f, h2]
  unfold Archive.sync Archive.getRepo
  simp only [ht, Bool.not_true, Bool.false_eq_true, if_false, hcond]

end SyncBranches

/-- Claim C2 counterexample: at the concrete input `repo = {owner: "o",
repo: "r"}`, `settings = {archived: "true"}`, `archived = true`, the
preview-mode `NopCommand` carries an endpoint descriptor built from the raw
settings object, while apply mode sends `{owner: "o", repo: "r",
archived: true}` to the remote update; the two parameter objects differ, so
the endpoint descriptor is not built from the same parameters apply would
send. -/
theorem preview_endpoint_counterexample :
    (Archive.updateRepoArchiveStatus true ⟨"o", "r"⟩
        (JSVal.obj [("archived", JSPrim.str "true")]) true (JSVal.obj [])).1 =
      .nopCmd { source := "Archive"
                repo := ⟨"o", "r"⟩
                endpoint := .updateEndpoint (JSVal.obj [("archived", JSPrim.str "true")])
                change := { msg := "Change found", additions := [],
                            modifications := [("archived", JSPrim.str "archive")],
                            deletions := [] }
                level := "INFO" } ∧
    (Archive.updateRepoArchiveStatus false ⟨"o", "r"⟩
        (JSVal.obj [("archived", JSPrim.str "true")]) true (JSVal.obj [])).2.2 =
      [Archive.applyUpdateParams ⟨"o", "r"⟩ true] ∧
    JSVal.obj [("archived", JSPrim.str "true")] ≠
      Archive.applyUpdateParams ⟨"o", "r"⟩ true := by
  refine ⟨rfl, rfl, by decide⟩

/-- Claim C2 as amended: for identical inputs, the preview artifact's
`change.modifications.archived` is `"archive"` exactly when apply mode would
send `archived = true` (and `"unarchive"` exactly when it would send
`false`), but the endpoint descriptor is built from the raw `settings`
object passed to `github.repos.update.endpoint`, not from the
`{owner, repo, archived}` parameter object apply mode sends to
`github.repos.update`. -/
theorem preview_apply_parity (repo : RepoId) (settings resp resp2 : JSVal)
    (archived : Bool) :
    ∃ c : NopCommand,
      (Archive.updateRepoArchiveStatus true repo settings archived resp).1 =
        .nopCmd c ∧
      (Archive.updateRepoArchiveStatus true repo settings archived resp).2 = ([], []) ∧
      c.change.modifications =
        [("archived", JSPrim.str (if archived then "archive" else "unarchive"))] ∧
      (c.change.modifications = [("archived", JSPrim.str "archive")] ↔
        archived = true) ∧
      c.endpoint = .updateEndpoint settings ∧
      (Archive.updateRepoArchiveStatus false repo settings archived resp2).2.2 =
        [Archive.applyUpdateParams repo archived] := by
  refine ⟨_, rfl, rfl, rfl, ?_, rfl, rfl⟩
  cases archived <;> simp

/-- Claim C3: in apply mode for a selected action, `updateRepoArchiveStatus`
calls the remote update with `archived = shouldArchive` (`true` iff the
action is `archive`, `false` iff it is `unarchive`), emits one debug entry
recording the resource identity and resulting action, and resolves with the
success marker `undefined` (`applied`); consequently the single entry `sync`
appends to its result list in apply mode is that success marker. -/
theorem apply_mode_updates (repo : RepoId) (settings repository resp : JSVal)
    (ht : repository.truthy = true)
    (hne : Archive.decideAction repository settings ≠ .noAction) :
    Archive.updateRepoArchiveStatus false repo settings
        (Archive.shouldArchive repository settings) resp =
      (.applied,
       [.debugWith resp ("Repo " ++ repo.owner ++ "/" ++ repo.repo ++ " " ++
          (if Archive.shouldArchive repository settings then "archive"
           else "unarchive") ++ "d")],
       [Archive.applyUpdateParams repo (Archive.shouldArchive repository settings)]) ∧
    (Archive.decideAction repository settings = .archive →
      Archive.shouldArchive repository settings = true) ∧
    (Archive.decideAction repository settings = .unarchive →
      Archive.shouldArchive repository settings = false) ∧
    Archive.sync false repo settings (Except.ok repository) resp =
      Except.ok { results := [.applied]
                  logs := [.debugWith resp ("Repo " ++ repo.owner ++ "/" ++
                    repo.repo ++ " " ++
                    (if Archive.shouldArchive repository settings then "archive"
                     else "unarchive") ++ "d")]
                  updateCalls := [Archive.applyUpdateParams repo
                    (Archive.shouldArchive repository settings)] } := by
  refine ⟨rfl, ?_, ?_, ?_⟩
  · intro h
    exact (decideAction_eq_archive_iff repository settings).mp h
  · intro h
    exact ((decideAction_eq_unarchive_iff repository settings).mp h).1
  · rw [sync_act false repo settings repository resp ht hne]
    rfl

/-- Witness for C3 at a concrete input: desired `True`, observed unarchived,
apply mode archives. -/
theorem apply_mode_updates_witness :
    Archive.sync false ⟨"o", "r"⟩ (JSVal.obj [("archived", JSPrim.bool true)])
      (Except.ok (JSVal.obj [("archived", JSPrim.bool false)])) (JSVal.obj []) =
      Except.ok { results := [.applied]
                  logs := [.debugWith (JSVal.obj [])
                    ("Repo o/r " ++
                      (if Archive.shouldArchive
                          (JSVal.obj [("archived", JSPrim.bool false)])
                          (JSVal.obj [("archived", JSPrim.bool true)])
                       then "archive" else "unarchive") ++ "d")]
                  updateCalls := [Archive.applyUpdateParams ⟨"o", "r"⟩
                    (Archive.shouldArchive
                      (JSVal.obj [("archived", JSPrim.bool false)])
                      (JSVal.obj [("archived", JSPrim.bool true)]))] } :=
  (apply_mode_updates ⟨"o", "r"⟩ (JSVal.obj [("archived", JSPrim.bool true)])
    (JSVal.obj [("archived", JSPrim.bool false)]) (JSVal.obj [])
    (by decide) (by decide)).2.2.2

/-- `sync` consumes the fetch outcome only through `getRepo`. -/
lemma sync_fetch_ok (nop : Bool) (repo : RepoId) (settings repository resp : JSVal)
    (fetchOutcome : Except JSVal JSVal)
    (hr : Archive.getRepo fetchOutcome = Except.ok repository) :
    Archive.sync nop repo settings fetchOutcome resp =
      Archive.sync nop repo settings (Except.ok repository) resp := by
  unfold Archive.sync
  rw [hr]
  rfl

/-- Claim C5: whenever the fetch step yields a repository value (so `sync`
resolves rather than rethrowing), the result list has zero or one entries:
zero with a warning and no remote update when the fetched resource is falsy
(the not-found marker), zero with a debug log when the selected action is
`noAction` (already compliant or no policy), and exactly one when a mutation
is applied or previewed. -/
theorem sync_zero_or_one (nop : Bool) (repo : RepoId)
    (settings resp repository : JSVal) (fetchOutcome : Except JSVal JSVal)
    (hr : Archive.getRepo fetchOutcome = Except.ok repository) :
    (∀ out : Archive.SyncOutput,
      Archive.sync nop repo settings fetchOutcome resp = Except.ok out →
        out.results.length = 0 ∨ out.results.length = 1) ∧
    (repository.truthy = false →
      Archive.sync nop repo settings fetchOutcome resp =
        Except.ok { results := []
                    logs := [.warn ("Repo " ++ repo.owner ++ "/" ++ repo.repo ++
                              " not found, skipping archive sync")]
                    updateCalls := [] }) ∧
    (repository.truthy = true →
      Archive.decideAction repository settings = .noAction →
      Archive.sync nop repo settings fetchOutcome resp =
        Except.ok { results := []
                    logs := [.debug ("No archive changes needed for " ++
                              repo.owner ++ "/" ++ repo.repo)]
                    updateCalls := [] }) ∧
    (repository.truthy = true →
      Archive.decideAction repository settings ≠ .noAction →
      ∃ out : Archive.SyncOutput,
        Archive.sync nop repo settings fetchOutcome resp = Except.ok out ∧
          out.results.length = 1) := by
  rw [sync_fetch_ok nop repo settings repository resp fetchOutcome hr]
  refine ⟨?_, ?_, ?_, ?_⟩
  · intro out hout
    by_cases ht : repository.truthy
    · by_cases hno : Archive.decideAction repository settings = .noAction
      · rw [sync_skip nop repo settings repository resp ht hno] at hout
        injection hout with h
        rw [← h]
        left
        rfl
      · rw [sync_act nop repo settings repository resp ht hno] at hout
        injection hout with h
        rw [← h]
        right
        rfl
    · have htf : repository.truthy = false := by simpa using ht
      rw [sync_not_found nop repo settings repository resp htf] at hout
      injection hout with h
      rw [← h]
      left
      rfl
  · intro htf
    exact sync_not_found nop repo settings repository resp htf
  · intro ht hno
    exact sync_skip nop repo settings repository resp ht hno
  · intro ht hno
    exact ⟨_, sync_act nop repo settings repository resp ht hno, rfl⟩

/-- Witness for C5 at a concrete input: a 404 fetch yields the empty result
list, a warning, and no remote update call. -/
theorem sync_zero_or_one_witness :
    Archive.sync false ⟨"o", "r"⟩ (JSVal.obj [])
      (Except.error (JSVal.obj [("status", JSPrim.num 404)])) (JSVal.obj []) =
      Except.ok { results := []
                  logs := [.warn "Repo o/r not found, skipping archive sync"]
                  updateCalls := [] } :=
  ((sync_zero_or_one false ⟨"o", "r"⟩ (JSVal.obj []) (JSVal.obj [])
    (JSVal.prim .null) (Except.error (JSVal.obj [("status", JSPrim.num 404)]))
    rfl).2.1) rfl

/-- Claim C7: reconciliation is idempotent — if a first `sync` selected an
action (so the value it sent is `shouldArchive`, which then equals the
desired state), a second `sync` whose fetched repository carries exactly
that `archived` boolean and unchanged settings selects `noAction` and
resolves with the empty result list. -/
theorem sync_idempotent (nop2 : Bool) (repo : RepoId)
    (settings repo1 repo2 resp2 : JSVal)
    (h1 : Archive.decideAction repo1 settings ≠ .noAction)
    (h2 : repo2.get "archived" = JSPrim.bool (Archive.shouldArchive repo1 settings))
    (ht : repo2.truthy = true) :
    Archive.sync nop2 repo settings (Except.ok repo2) resp2 =
      Except.ok { results := []
                  logs := [.debug ("No archive changes needed for " ++
                            repo.owner ++ "/" ++ repo.repo)]
                  updateCalls := [] } := by
  have hd := desired_eq_shouldArchive_of_action repo1 settings h1
  have htr : (repo2.get "archived").truthy = Archive.shouldArchive repo1 settings := by
    rw [h2]
    simp
  have hno : Archive.decideAction repo2 settings = .noAction := by
    rw [decideAction_eq_noAction_iff]
    constructor
    · by_contra hb
      have hx := (shouldArchive_eq_true_iff repo2 settings).mp (by simpa using hb)
      rw [hd] at hx
      have hb1 : Archive.shouldArchive repo1 settings = true :=
        Option.some_inj.mp hx.1
      rw [htr, hb1] at hx
      exact absurd hx.2 (by simp)
    · by_contra hb
      have hx := (shouldUnarchive_truthy_iff repo2 settings).mp (by simpa using hb)
      rw [hd] at hx
      have hb1 : Archive.shouldArchive repo1 settings = false :=
        Option.some_inj.mp hx.1
      rw [htr, hb1] at hx
      exact absurd hx.2 (by simp)
  exact sync_skip nop2 repo settings repo2 resp2 ht hno

/-- Witness for C7 at a concrete input: after archiving (first call sent
`archived = true`), a second call on the now-archived repository with the
same settings is a no-op. -/
theorem sync_idempotent_witness :
    Archive.sync false ⟨"o", "r"⟩ (JSVal.obj [("archived", JSPrim.bool true)])
      (Except.ok (JSVal.obj [("archived", JSPrim.bool true)])) (JSVal.obj []) =
      Except.ok { results := []
                  logs := [.debug "No archive changes needed for o/r"]
                  updateCalls := [] } :=
  sync_idempotent false ⟨"o", "r"⟩ (JSVal.obj [("archived", JSPrim.bool true)])
    (JSVal.obj [("archived", JSPrim.bool false)])
    (JSVal.obj [("archived", JSPrim.bool true)]) (JSVal.obj [])
    (by decide) (by decide) (by decide)
